import Mathlib

/-!
Verification development for the XSLT-Generator repository.

The definitions below are a shallow embedding of the mapping-to-stylesheet
compiler found in the repository source (the `xsltGenerator` utility module):
XPath normalization, source-path parsing, hierarchy completion and building,
the three format emitters (XML, JSON, flat file) and the dispatching facade.
JavaScript strings are modelled by Lean `String` (operations are implemented
over the underlying character lists so that every definition evaluates inside
the kernel), JavaScript absent/undefined string fields by `""` where the code
only uses truthiness, and genuinely three-valued fields (such as `required`,
where the code distinguishes `undefined` from `false`) by `Option`.
-/

namespace XSLTGen

/-! ## Character-list string utilities -/

/-- Is `pat` a leading segment of `s` (character lists)? -/
def listLeads : List Char → List Char → Bool
  | [], _ => true
  | _ :: _, [] => false
  | a :: as, b :: bs => a = b && listLeads as bs

/-- Does `pat` occur contiguously anywhere inside `s` (character lists)? -/
def listHasSub (pat : List Char) : List Char → Bool
  | [] => listLeads pat []
  | c :: rest => listLeads pat (c :: rest) || listHasSub pat rest

/-- Number of positions of `s` at which `pat` starts (character lists). -/
def listCountSub (pat : List Char) : List Char → Nat
  | [] => if listLeads pat [] then 1 else 0
  | c :: rest => (if listLeads pat (c :: rest) then 1 else 0) + listCountSub pat rest

/-- `s.startsWith pat`, computed on the character lists. -/
def strStarts (s pat : String) : Bool := listLeads pat.data s.data

/-- `s.endsWith pat`, computed on the character lists. -/
def strEnds (s pat : String) : Bool := listLeads pat.data.reverse s.data.reverse

/-- JavaScript `s.includes(pat)`. -/
def strContains (s pat : String) : Bool := listHasSub pat.data s.data

/-- Number of (possibly overlapping) occurrences of `pat` inside `s`. -/
def countSub (s pat : String) : Nat := listCountSub pat.data s.data

/-- JavaScript `Array.prototype.join(sep)`. -/
def joinWith (sep : String) : List String → String
  | [] => ""
  | [x] => x
  | x :: y :: rest => x ++ sep ++ joinWith sep (y :: rest)

/-- Split a character list at every `/`, keeping empty segments
(the semantics of JavaScript `"".split("/")` included: one empty segment). -/
def splitSlashData : List Char → List (List Char)
  | [] => [[]]
  | c :: rest =>
      if c = '/' then [] :: splitSlashData rest
      else
        match splitSlashData rest with
        | [] => [[c]]
        | h :: t => (c :: h) :: t

/-- JavaScript `s.split("/")`. -/
def splitSlash (s : String) : List String := (splitSlashData s.data).map String.mk

/-- ASCII whitespace predicate used to model JavaScript `String.prototype.trim`. -/
def isWS (c : Char) : Bool := c = ' ' || c = '\t' || c = '\n' || c = '\r'

/-- JavaScript `s.trim()` (ASCII whitespace; the inputs of interest contain
no exotic Unicode whitespace). -/
def jsTrim (s : String) : String :=
  String.mk (((s.data.dropWhile isWS).reverse.dropWhile isWS).reverse)

/-- JavaScript `s.toLowerCase()` restricted to ASCII letters, which is all the
facade compares format strings over. -/
def jsToLower (s : String) : String := String.mk (s.data.map Char.toLower)

/-- Drop `n` leading characters of a string, on the character list. -/
def strDropData (s : String) (n : Nat) : String := String.mk (s.data.drop n)

/-! ## Data model

One record per JavaScript object shape.  Fields the code reads only for
truthiness are plain `String`/`Nat` with `""`/`0` standing for
absent/undefined; `required` keeps the JavaScript `undefined`/`false`
distinction via `Option Bool` because the source tests `required !== false`. -/

/-- An attribute specification: name plus exactly one of a hardcoded value,
a variable reference, or a computed xpath. -/
structure JAttr where
  name : String := ""
  value : String := ""
  isHardcoded : Bool := false
  isVariable : Bool := false
  xpath : String := ""
  deriving Repr, DecidableEq

/-- A stylesheet-level variable declaration (`value` literal or `xpath`). -/
structure JVar where
  name : String := ""
  value : String := ""
  xpath : String := ""
  deriving Repr, DecidableEq

/-- The parsed form of a source path, produced by `parseSourcePath`. -/
structure Parsed where
  isAttr : Bool := false
  parentPath : String := ""
  name : String := ""
  xpath : String := ""
  deriving Repr, DecidableEq

/-- One mapping row.  `leafName` and `parsed` are the extra properties the
hierarchy builders spread onto copies stored in `_fields` lists. -/
structure JMapping where
  sourcePath : String := ""
  sourceType : String := ""
  targetName : String := ""
  targetPath : String := ""
  fieldType : String := ""
  occurs : Nat := 0
  required : Option Bool := none
  attributes : List JAttr := []
  valueType : String := ""
  hardcodedValue : String := ""
  forEachPath : String := ""
  isPlaceholder : Bool := false
  isAttribute : Bool := false
  leafName : String := ""
  parsed : Option Parsed := none
  deriving Repr, DecidableEq

/-- The configured root element of the XML emitter. -/
structure JRootElement where
  name : String := "root"
  attributes : List JAttr := []
  deriving Repr, DecidableEq

/-- The top-level compiler input. -/
structure MappingSet where
  fields : List JMapping := []
  rootPath : String := ""
  recordPath : String := ""
  rootElement : Option JRootElement := none
  /-- The `variables` array of the source (`none` models an absent property;
  the field is renamed because `variables` is reserved in Lean). -/
  varList : Option (List JVar) := none
  xsltVersion : String := ""
  deriving Repr, DecidableEq

/-- Options carried by the facade (`namespaces` as an insertion-ordered
prefix/URI association list, `delimiter` with `""` for absent). -/
structure GenOptions where
  namespaces : List (String × String) := []
  delimiter : String := ""
  deriving Repr, DecidableEq

/-- JavaScript `mapping.targetPath || mapping.targetName`. -/
def effTargetPath (m : JMapping) : String :=
  if m.targetPath = "" then m.targetName else m.targetPath

/-! ## XPath Normalizer -/

/-- Split a character list at its first `/`: `some (before, after)` or `none`
when the list has no slash. -/
def firstSlashSplit : List Char → Option (List Char × List Char)
  | [] => none
  | c :: rest =>
      if c = '/' then some ([], rest)
      else
        match firstSlashSplit rest with
        | some (a, b) => some (c :: a, b)
        | none => none

/-- Case-insensitively, do the characters end with `.xml`? -/
def endsWithDotXml (cs : List Char) : Bool :=
  listLeads [ 'l', 'm', 'x', '.' ] (cs.map Char.toLower).reverse

/-- The regex `^[^/]*\.xml\//i` replacement with `""`: strip a leading
`<filename>.xml/` segment (the matched region necessarily runs up to the
first slash of the string). -/
def stripXmlFile (s : String) : String :=
  match firstSlashSplit s.data with
  | some (pre, post) => if endsWithDotXml pre then String.mk post else s
  | none => s

/-- Scanning rightwards, is the first square bracket encountered a closing
one?  This is exactly when the regex lookahead `[^\[]*\]` succeeds. -/
def nextBracketIsClose : List Char → Bool
  | [] => false
  | c :: rest =>
      if c = '[' then false
      else if c = ']' then true
      else nextBracketIsClose rest

/-- The regex `\.(?![^\[]*\])/g` replacement with `/`: a dot becomes a slash
unless a `]` occurs to its right before any `[`. -/
def dotReplData : List Char → List Char
  | [] => []
  | c :: rest =>
      (if c = '.' && !(nextBracketIsClose rest) then '/' else c) :: dotReplData rest

/-- Dot-to-slash conversion on a string. -/
def dotRepl (s : String) : String := String.mk (dotReplData s.data)

/-- Step (c): prefix `//` when the path starts with neither `/` nor `*`. -/
def addDescendantMark (s : String) : String :=
  if !(strStarts s "/") && !(strStarts s "*") then "//" ++ s else s

/-- `normalizeXPath` from the source: empty input gives `""`; otherwise trim,
strip a leading `<filename>.xml/`, convert separator dots to slashes, and add
the `//` prefix when needed.  Validation only logs, it never changes the
result. -/
def normalizeXPath (xpath : String) : String :=
  if xpath = "" then ""
  else addDescendantMark (dotRepl (stripXmlFile (jsTrim xpath)))

/-- How often does one character occur in a string? -/
def countChar (s : String) (c : Char) : Nat := (s.data.filter (fun d => d = c)).length

/-- Is a character an ASCII letter? -/
def isAsciiLetter (c : Char) : Bool :=
  ( 'a' ≤ c && c ≤ 'z') || ( 'A' ≤ c && c ≤ 'Z')

/-- `isValidXPath` from the source: non-empty, balanced bracket counts, and a
first character that is a letter, `/`, `*` or `@`. -/
def isValidXPath (xpath : String) : Bool :=
  if xpath = "" then false
  else
    (countChar xpath '[' = countChar xpath ']' : Bool) &&
    (match xpath.data with
     | [] => true
     | c :: _ => isAsciiLetter c || c = '/' || c = '*' || c = '@')

/-! A second dot-conversion definition, following the specification text
word for word, used to compare the code against the sentence
"replace `.` used as a hierarchy separator with `/`, but never inside a
bracketed predicate (`[...]`)". -/

/-- Modelled from the spec: replace a dot by a slash exactly when the
bracket-nesting depth at the dot is zero, i.e. the dot is not inside a
bracketed predicate. -/
def dotReplSpecAux : Nat → List Char → List Char
  | _, [] => []
  | d, c :: rest =>
      if c = '[' then c :: dotReplSpecAux (d + 1) rest
      else if c = ']' then c :: dotReplSpecAux (d - 1) rest
      else if c = '.' && d = 0 then '/' :: dotReplSpecAux d rest
      else c :: dotReplSpecAux d rest

/-- Modelled from the spec: the whole normalizer with the word-for-word
reading of step (b). -/
def specNormalizeXPath (xpath : String) : String :=
  if xpath = "" then ""
  else addDescendantMark (String.mk (dotReplSpecAux 0 (stripXmlFile (jsTrim xpath)).data))

/-- Recognizer for strings whose brackets are balanced and never nested:
`d` is the current depth (`0` or `1`). -/
def bal01 : Nat → List Char → Bool
  | 0, [] => true
  | _ + 1, [] => false
  | d, c :: rest =>
      if c = '[' then (if d = 0 then bal01 1 rest else false)
      else if c = ']' then (if d = 1 then bal01 0 rest else false)
      else bal01 d rest

/-! ## Path Parser -/

/-- Rightmost split of the characters around `/@` such that the part after
`/@` is non-empty: the behaviour of the greedy regex `(.+)\/@(.+)` (the
wrapper below rejects an empty part before `/@`). -/
def attrSplitData : List Char → Option (List Char × List Char)
  | [] => none
  | [_] => none
  | c :: d :: rest =>
      match attrSplitData (d :: rest) with
      | some (a, b) => some (c :: a, b)
      | none => if c = '/' && d = '@' && rest ≠ [] then some ([], rest) else none

/-- The `sourcePath.match(/(.+)\/@(.+)/)` capture groups, or `none` when the
regex does not match. -/
def attrSplit (s : String) : Option (String × String) :=
  match attrSplitData s.data with
  | some ([], _) => none
  | some (a, b) => some (String.mk a, String.mk b)
  | none => none

/-- The element branch of `parseSourcePath`: strip a leading `//` then a
leading `/`, split on `/`, last segment is the element name. -/
def elemParse (sourcePath : String) : Parsed :=
  let s1 := if strStarts sourcePath "//" then strDropData sourcePath 2 else sourcePath
  let s2 := if strStarts s1 "/" then strDropData s1 1 else s1
  let parts := splitSlash s2
  { isAttr := false
    parentPath := joinWith "/" parts.dropLast
    name := parts.getLastD ""
    xpath := sourcePath }

/-- `parseSourcePath` from the source. -/
def parseSourcePath (sourcePath : String) : Parsed :=
  if strContains sourcePath "/@" then
    match attrSplit sourcePath with
    | some (par, att) => { isAttr := true, parentPath := par, name := att, xpath := sourcePath }
    | none => elemParse sourcePath
  else elemParse sourcePath

/-! ## Mapping normalization -/

/-- `normalizeAllMappings` from the source: a mapping lacking `sourcePath` or
`targetName` is passed through unchanged (only a console warning is logged);
all others get a normalized source path and defaulted `occurs`, `fieldType`,
`required` and `isAttribute`. -/
def normalizeAllMappings (fields : List JMapping) : List JMapping :=
  fields.map (fun m =>
    if m.sourcePath = "" || m.targetName = "" then m
    else
      { m with
        sourcePath := normalizeXPath m.sourcePath
        occurs := if m.occurs = 0 then 1 else m.occurs
        fieldType := if m.fieldType = "" then "string" else m.fieldType
        required := some (m.required ≠ some false)
        isAttribute := m.sourceType = "attribute" || strContains m.sourcePath "/@" })

/-! ## Hierarchy Completer -/

/-- All non-empty slash-prefixes of a target path, in order: `a/b/c` yields
`a`, `a/b`, `a/b/c`. -/
def prefixesOf (t : String) : List String :=
  let parts := splitSlash t
  (List.range parts.length).map (fun i => joinWith "/" (parts.take (i + 1)))

/-- Append a path to an accumulator unless already present: the insertion
behaviour of the JavaScript `Set`. -/
def addUnique (acc : List String) (p : String) : List String :=
  if p ∈ acc then acc else acc ++ [p]

/-- The `allPaths` set of `ensureCompleteHierarchy`, in insertion order. -/
def allPathsOf (ms : List JMapping) : List String :=
  ms.foldl (fun acc m => (prefixesOf (effTargetPath m)).foldl addUnique acc) []

/-- Replace every `/` by `_`. -/
def slashToUnderscore (s : String) : String :=
  String.mk (s.data.map (fun c => if c = '/' then '_' else c))

/-- The placeholder mapping synthesized for a missing component path. -/
def mkPlaceholder (path : String) : JMapping :=
  { targetName := (splitSlash path).getLastD ""
    targetPath := path
    sourcePath := "//" ++ slashToUnderscore path
    fieldType := "component"
    required := some false
    isPlaceholder := true }

/-- The paths for which `ensureCompleteHierarchy` synthesizes placeholders:
collected prefixes that are no mapping's own target path and contain a `/`. -/
def missingPaths (ms : List JMapping) : List String :=
  (allPathsOf ms).filter (fun p => !((ms.map effTargetPath).contains p) && strContains p "/")

/-- `ensureCompleteHierarchy` from the source: the original mappings followed
by one placeholder per missing multi-segment component path. -/
def ensureCompleteHierarchy (ms : List JMapping) : List JMapping :=
  ms ++ (missingPaths ms).map mkPlaceholder

/-! ## Hierarchy Builder (inline generation) -/

/-- A JavaScript hierarchy object or property value, as one first-order
inductive so every walk over it is structurally recursive.  An object is its
insertion-ordered entry list, built from `nil`/`cons`; a property value is
either such an object (a path-segment child) or `fields l` (the value of the
reserved `"_fields"` key).  The always-skipped `_metadata` bookkeeping
entries are omitted from the model. -/
inductive HTree where
  | fields (l : List JMapping)
  | nil
  | cons (key : String) (v : HTree) (rest : HTree)
  deriving Repr

/-- Append a leaf mapping to the `_fields` entry, creating it at the end of
the object when absent (JavaScript property-insertion order). -/
def pushField (entries : HTree) (m : JMapping) : HTree :=
  match entries with
  | HTree.nil => HTree.cons "_fields" (HTree.fields [m]) HTree.nil
  | HTree.cons k v rest =>
      if k = "_fields" then
        match v with
        | HTree.fields l => HTree.cons k (HTree.fields (l ++ [m])) rest
        | _ => HTree.cons k v rest
      else HTree.cons k v (pushField rest m)
  | HTree.fields l => HTree.fields l

/-- Update the entry under `seg` with `f` (creating it at the end when
absent), preserving entry order. -/
def updateAssoc (entries : HTree) (seg : String) (f : Option HTree → HTree) : HTree :=
  match entries with
  | HTree.nil => HTree.cons seg (f none) HTree.nil
  | HTree.cons k v rest =>
      if k = seg then HTree.cons k (f (some v)) rest
      else HTree.cons k v (updateAssoc rest seg f)
  | HTree.fields l => HTree.fields l

/-- Walk/create the nested component nodes for a target-path segment list and
attach the mapping (augmented with `leafName` and its parsed source) at the
terminal node, exactly as the `parts.forEach` walk of the source does. -/
def insertParts (parts : List String) (m : JMapping) (entries : HTree) : HTree :=
  match parts with
  | [] => entries
  | [last] =>
      pushField entries { m with leafName := last, parsed := some (parseSourcePath m.sourcePath) }
  | seg :: rest =>
      updateAssoc entries seg (fun v? =>
        let sub :=
          match v? with
          | some (HTree.fields _) => HTree.nil
          | some o => o
          | none => HTree.nil
        insertParts rest m sub)

/-- `buildHierarchyForInlineGeneration` from the source (mappings lacking
`sourcePath` or `targetName` are skipped). -/
def buildHierarchyForInlineGeneration (ms : List JMapping) : HTree :=
  ms.foldl (fun h m =>
    if m.sourcePath = "" || m.targetName = "" then h
    else insertParts (splitSlash (effTargetPath m)) m h) HTree.nil

/-! ## XML Emitter -/

/-- Characters the element-name escaper keeps: the regex class `[a-zA-Z0-9_.-]`. -/
def isNameChar (c : Char) : Bool :=
  isAsciiLetter c || c.isDigit || c = '_' || c = '.' || c = '-'

/-- `escapeXMLName` from the source: every character outside `[a-zA-Z0-9_.-]`
becomes `_`. -/
def escapeXMLName (name : String) : String :=
  String.mk (name.data.map (fun c => if isNameChar c then c else '_'))

/-- Rendering of one attribute: variable reference, hardcoded literal, or
computed attribute-value template, checked in that order. -/
def attrText (a : JAttr) : String :=
  if a.isVariable then " " ++ a.name ++ "=\"\x7b$" ++ a.value ++ "\x7d\""
  else if a.isHardcoded then " " ++ a.name ++ "=\"" ++ a.value ++ "\""
  else if a.xpath ≠ "" then " " ++ a.name ++ "=\"\x7b" ++ a.xpath ++ "\x7d\""
  else ""

/-- `generateElementWithAttributes` from the source: the element name is
emitted verbatim (no sanitization happens here). -/
def generateElementWithAttributes (element : JRootElement) (indent : String) : String :=
  indent ++ "<" ++ element.name ++ String.join (element.attributes.map attrText) ++ ">\n"

/-- `generateXMLValueSelectInline` from the source: a plain value-of on the
full xpath, with no field-type dispatch. -/
def generateXMLValueSelectInline (mapping : JMapping) (parsed : Parsed) (indent : String) : String :=
  let selectPath := if parsed.xpath ≠ "" then parsed.xpath else mapping.sourcePath
  indent ++ "<xsl:value-of select=\"" ++ selectPath ++ "\"/>\n"

/-- `generateXMLFieldInline` from the source. -/
def generateXMLFieldInline (mapping : JMapping) (indent : String) : String :=
  let parsed := mapping.parsed.getD {}
  let leafName := escapeXMLName mapping.leafName
  if mapping.forEachPath ≠ "" || mapping.occurs > 1 then
    let forEachPath :=
      if mapping.forEachPath ≠ "" then mapping.forEachPath
      else if parsed.xpath ≠ "" then parsed.xpath
      else mapping.sourcePath
    indent ++ "<xsl:for-each select=\"" ++ forEachPath ++ "\">\n"
      ++ generateElementWithAttributes { name := leafName, attributes := mapping.attributes }
          (indent ++ "  ")
      ++ (if mapping.valueType = "hardcoded" then indent ++ "    " ++ mapping.hardcodedValue ++ "\n"
          else if mapping.valueType = "empty" then ""
          else generateXMLValueSelectInline mapping parsed (indent ++ "    "))
      ++ indent ++ "  </" ++ leafName ++ ">\n"
      ++ indent ++ "</xsl:for-each>\n"
  else
    generateElementWithAttributes { name := leafName, attributes := mapping.attributes } indent
      ++ (if mapping.valueType = "hardcoded" then indent ++ "  " ++ mapping.hardcodedValue ++ "\n"
          else if mapping.valueType = "empty" then ""
          else if parsed.isAttr then
            indent ++ "  <xsl:value-of select=\"@" ++ parsed.name ++ "\"/>\n"
          else generateXMLValueSelectInline mapping parsed (indent ++ "  "))
      ++ indent ++ "</" ++ leafName ++ ">\n"

/-- `generateInlineXMLStructure` from the source: walk the hierarchy entries
in order; `_fields` lists render their leaf fields, any other key renders a
component element named by `escapeXMLName key`, wrapped in a for-each when the
first mapping whose target path mentions the segment asks for repetition. -/
def generateInlineXMLStructure (hierarchy : HTree) (mappings : List JMapping)
    (indent : String) : String :=
  match hierarchy with
  | HTree.fields _ => ""
  | HTree.nil => ""
  | HTree.cons key v rest =>
      (if key = "_fields" then
        match v with
        | HTree.fields l => String.join (l.map (fun m => generateXMLFieldInline m indent))
        | _ => ""
      else if key = "_metadata" then ""
      else
        let escapedKey := escapeXMLName key
        let cm? := mappings.find? (fun m => (splitSlash (effTargetPath m)).contains key)
        let inner := fun ind => generateInlineXMLStructure v mappings ind
        match cm? with
        | some cm =>
            if cm.forEachPath ≠ "" || cm.occurs > 1 then
              let parsed := cm.parsed.getD (parseSourcePath cm.sourcePath)
              let forEachPath :=
                if cm.forEachPath ≠ "" then cm.forEachPath
                else if parsed.xpath ≠ "" then parsed.xpath
                else cm.sourcePath
              indent ++ "<xsl:for-each select=\"" ++ forEachPath ++ "\">\n"
                ++ generateElementWithAttributes
                    { name := escapedKey, attributes := cm.attributes } (indent ++ "  ")
                ++ inner (indent ++ "    ")
                ++ indent ++ "  </" ++ escapedKey ++ ">\n"
                ++ indent ++ "</xsl:for-each>\n"
            else
              generateElementWithAttributes
                  { name := escapedKey, attributes := cm.attributes } indent
                ++ inner (indent ++ "  ")
                ++ indent ++ "</" ++ escapedKey ++ ">\n"
        | none =>
            generateElementWithAttributes { name := escapedKey, attributes := [] } indent
              ++ inner (indent ++ "  ")
              ++ indent ++ "</" ++ escapedKey ++ ">\n") ++
      generateInlineXMLStructure rest mappings indent

/-- Rendering of one stylesheet-level variable declaration: xpath values are
emitted unquoted, literal values wrapped in single quotes, declarations with
neither are dropped. -/
def varLine (v : JVar) : String :=
  if v.xpath ≠ "" then
    "  <xsl:variable name=\"" ++ v.name ++ "\" select=\"" ++ v.xpath ++ "\"/>\n"
  else if v.value ≠ "" then
    "  <xsl:variable name=\"" ++ v.name ++ "\" select=\"\x27" ++ v.value ++ "\x27\"/>\n"
  else ""

/-- Namespace declarations for all non-default prefixes, joined by `sep`. -/
def nsDeclText (namespaces : List (String × String)) (sep : String) : String :=
  joinWith sep ((namespaces.filter (fun kv => kv.fst ≠ "default")).map
    (fun kv => "xmlns:" ++ kv.fst ++ "=\"" ++ kv.snd ++ "\""))

/-- The bare `xmlns` declaration for the reserved `default` key. -/
def defaultNSText (namespaces : List (String × String)) : String :=
  match namespaces.lookup "default" with
  | some u => if u = "" then "" else "xmlns=\"" ++ u ++ "\""
  | none => ""

/-- The space-joined non-default prefixes. -/
def nsPrefixText (namespaces : List (String × String)) : String :=
  joinWith " " ((namespaces.filter (fun kv => kv.fst ≠ "default")).map (fun kv => kv.fst))

/-- The `exclude-result-prefixes` attribute, empty when there is no prefix. -/
def excludeResultText (namespaces : List (String × String)) : String :=
  if nsPrefixText namespaces = "" then ""
  else "exclude-result-prefixes=\"" ++ nsPrefixText namespaces ++ "\""

/-- The actual (non-placeholder) fields the XML and flat emitters work with:
normalize, complete the hierarchy, and drop the placeholders again. -/
def actualFieldsOf (ms : MappingSet) : List JMapping :=
  (ensureCompleteHierarchy (normalizeAllMappings ms.fields)).filter (fun m => !m.isPlaceholder)

/-- `generateXMLTransform` from the source. -/
def generateXMLTransform (mappings : MappingSet) (namespaces : List (String × String)) : String :=
  let actualFields := actualFieldsOf mappings
  let hierarchy := buildHierarchyForInlineGeneration actualFields
  let version := if mappings.xsltVersion = "" then "1.0" else mappings.xsltVersion
  let rootElement := mappings.rootElement.getD { name := "root", attributes := [] }
  "<?xml version=\"1.0\" encoding=\"UTF-8\"?>\n<xsl:stylesheet version=\"" ++ version
    ++ "\" \n  xmlns:xsl=\"http://www.w3.org/1999/XSL/Transform\"\n  "
    ++ nsDeclText namespaces " " ++ "\n  " ++ defaultNSText namespaces ++ "\n  "
    ++ excludeResultText namespaces
    ++ ">\n\n  <xsl:output method=\"xml\" encoding=\"UTF-8\" indent=\"yes\"/>\n"
    ++ (match mappings.varList with
        | some vars =>
            "\n  <!-- Define top-level variables for constants -->\n"
              ++ String.join (vars.map varLine)
        | none => "")
    ++ "\n  <xsl:template match=\"/\">\n"
    ++ generateElementWithAttributes rootElement "    "
    ++ generateInlineXMLStructure hierarchy actualFields "      "
    ++ "    </" ++ rootElement.name ++ ">\n"
    ++ "  </xsl:template>\n"
    ++ "\n</xsl:stylesheet>"

/-! ## JSON Emitter -/

/-- `validateAndFixXPath` from the source. -/
def validateAndFixXPath (sourcePath : String) (parsed : Parsed) : String :=
  if sourcePath = "" then ""
  else if strContains sourcePath ":" && !(strStarts sourcePath "//") then sourcePath
  else
    let xpath := if parsed.xpath ≠ "" then parsed.xpath else sourcePath
    let xpath := normalizeXPath xpath
    if parsed.isAttr && !(strContains xpath "/@") && !(strContains xpath "@") then
      if parsed.parentPath ≠ "" && parsed.name ≠ "" then
        parsed.parentPath ++ "/@" ++ parsed.name
      else xpath
    else xpath

/-- `generateJSONValueSelectEnhanced` from the source: a plain value-of on the
validated xpath (no field-type dispatch on the production path). -/
def generateJSONValueSelectEnhanced (_mapping : JMapping) (_parsed : Parsed) (xpath : String)
    (indent : String) : String :=
  indent ++ "<xsl:value-of select=\"" ++ xpath ++ "\"/>\n"

/-- `buildJSONHierarchyEnhanced` from the source; its body is
character-for-character the body of `buildHierarchyForInlineGeneration`. -/
def buildJSONHierarchyEnhanced (ms : List JMapping) : HTree :=
  buildHierarchyForInlineGeneration ms

/-- The leaf-field branch of `generateJSONMapEntriesEnhanced`: placeholders
emit only a comment, optional fields get an annotation, keys are the escaped
leaf names in single quotes, `occurs > 1` wraps the value in an array. -/
def jsonFieldEntry (m : JMapping) (indent : String) : String :=
  let parsed := m.parsed.getD {}
  let leafName := escapeXMLName m.leafName
  if m.isPlaceholder then
    indent ++ "<!-- " ++ leafName ++ " - Placeholder component -->\n"
  else
    (if m.required ≠ some true then
      indent ++ "<!-- " ++ leafName ++ " - Optional field -->\n"
    else "")
    ++
    (let xpath := validateAndFixXPath m.sourcePath parsed
     if m.occurs > 1 then
       indent ++ "<!-- " ++ leafName ++ " - Multiple occurrences (Occurs: "
         ++ toString m.occurs ++ ") -->\n"
         ++ indent ++ "<xsl:map-entry key=\"\x27" ++ leafName ++ "\x27\">\n"
         ++ indent ++ "  <xsl:array>\n"
         ++ indent ++ "    <xsl:for-each select=\"" ++ xpath ++ "\">\n"
         ++ generateJSONValueSelectEnhanced m parsed xpath (indent ++ "      ")
         ++ indent ++ "    </xsl:for-each>\n"
         ++ indent ++ "  </xsl:array>\n"
         ++ indent ++ "</xsl:map-entry>\n"
     else
       indent ++ "<xsl:map-entry key=\"\x27" ++ leafName ++ "\x27\">\n"
         ++ (if parsed.isAttr then
              indent ++ "  <xsl:value-of select=\"" ++ xpath ++ "\"/>\n"
            else generateJSONValueSelectEnhanced m parsed xpath (indent ++ "  "))
         ++ indent ++ "</xsl:map-entry>\n")

/-- `generateJSONMapEntriesEnhanced` from the source. -/
def generateJSONMapEntriesEnhanced (hierarchy : HTree) (mappings : List JMapping)
    (rootPath : String) (indent : String) : String :=
  match hierarchy with
  | HTree.fields _ => ""
  | HTree.nil => ""
  | HTree.cons key v rest =>
      (if key = "_fields" then
        match v with
        | HTree.fields l => String.join (l.map (fun m => jsonFieldEntry m indent))
        | _ => ""
      else if key = "_metadata" then ""
      else
        let escapedKey := escapeXMLName key
        let cm? := mappings.find? (fun m =>
          (splitSlash (effTargetPath m)).getLastD "" = key && m.occurs > 1)
        let inner := fun ind => generateJSONMapEntriesEnhanced v mappings rootPath ind
        match cm? with
        | some cm =>
            let parsed := cm.parsed.getD (parseSourcePath cm.sourcePath)
            let xpath := validateAndFixXPath cm.sourcePath parsed
            indent ++ "<!-- " ++ escapedKey ++ " - Multiple occurrences (Occurs: "
              ++ toString cm.occurs ++ ") -->\n"
              ++ indent ++ "<xsl:map-entry key=\"\x27" ++ escapedKey ++ "\x27\">\n"
              ++ indent ++ "  <xsl:array>\n"
              ++ indent ++ "    <xsl:for-each select=\"" ++ xpath ++ "\">\n"
              ++ indent ++ "      <xsl:map>\n"
              ++ inner (indent ++ "        ")
              ++ indent ++ "      </xsl:map>\n"
              ++ indent ++ "    </xsl:for-each>\n"
              ++ indent ++ "  </xsl:array>\n"
              ++ indent ++ "</xsl:map-entry>\n"
        | none =>
            indent ++ "<xsl:map-entry key=\"\x27" ++ escapedKey ++ "\x27\">\n"
              ++ indent ++ "  <xsl:map>\n"
              ++ inner (indent ++ "    ")
              ++ indent ++ "  </xsl:map>\n"
              ++ indent ++ "</xsl:map-entry>\n") ++
      generateJSONMapEntriesEnhanced rest mappings rootPath indent

/-- `generateJSONTransform` from the source (note it hands the hierarchy
builder the full normalized list, placeholders included). -/
def generateJSONTransform (mappings : MappingSet) (namespaces : List (String × String)) : String :=
  let nsDecl := nsDeclText namespaces "\n    "
  let excl := excludeResultText namespaces
  let xpathDefaultNS :=
    match namespaces.lookup "default" with
    | some u => if u = "" then "" else "xpath-default-namespace=\"" ++ u ++ "\""
    | none => ""
  let normalizedMappings := ensureCompleteHierarchy (normalizeAllMappings mappings.fields)
  let jsonHierarchy := buildJSONHierarchyEnhanced normalizedMappings
  let rootPath := if mappings.rootPath = "" then "/*[1]" else mappings.rootPath
  "<?xml version=\"1.0\" encoding=\"UTF-8\"?>\n<xsl:stylesheet version=\"3.0\"\n    xmlns:xsl=\"http://www.w3.org/1999/XSL/Transform\""
    ++ (if nsDecl ≠ "" then "\n    " ++ nsDecl else "")
    ++ (if excl ≠ "" then "\n    " ++ excl else "")
    ++ (if xpathDefaultNS ≠ "" then "\n    " ++ xpathDefaultNS else "")
    ++ ">\n \n    <xsl:output method=\"json\" indent=\"yes\"/>\n \n    <xsl:template match=\"/\">\n<xsl:map>\n"
    ++ "<xsl:for-each select=\"" ++ rootPath ++ "\">\n"
    ++ generateJSONMapEntriesEnhanced jsonHierarchy normalizedMappings rootPath ""
    ++ "</xsl:for-each>\n"
    ++ "</xsl:map>\n</xsl:template>\n \n</xsl:stylesheet>"

/-! ## Flat Emitter -/

/-- Flattened header name of a field: target path with `/` replaced by `.`. -/
def flatName (m : JMapping) : String :=
  String.mk ((effTargetPath m).data.map (fun c => if c = '/' then '.' else c))

/-- The header columns, in order: `occurs = N > 1` expands a field into
`name_1 … name_N`, otherwise one column. -/
def flatHeaderParts : List JMapping → List String
  | [] => []
  | m :: rest =>
      (if m.occurs > 1 then
        (List.range m.occurs).map (fun i => flatName m ++ "_" ++ toString (i + 1))
      else [flatName m]) ++ flatHeaderParts rest

/-- `generateFlatFileValueExtraction` from the source: a type-dispatched
choose block followed by the separator text node. -/
def generateFlatFileValueExtraction (mapping : JMapping) (parsed : Parsed) (separator : String)
    (occurrenceIndex : Option Nat) : String :=
  let indent := "    "
  let selectPath :=
    match occurrenceIndex with
    | some i =>
        if parsed.isAttr then parsed.parentPath ++ "[" ++ toString i ++ "]/@" ++ parsed.name
        else parsed.name ++ "[" ++ toString i ++ "]"
    | none =>
        if parsed.isAttr then "@" ++ parsed.name
        else if parsed.name ≠ "" then parsed.name
        else "."
  let suffix :=
    match occurrenceIndex with
    | some i => if i = 0 then "" else "_" ++ toString i
    | none => ""
  let body :=
    if mapping.fieldType = "date" || mapping.fieldType = "dateTime" then
      indent ++ "<!-- " ++ mapping.targetName ++ suffix ++ " - Date/DateTime field -->\n"
        ++ indent ++ "<xsl:choose>\n"
        ++ indent ++ "  <xsl:when test=\"" ++ selectPath ++ "\">\n"
        ++ indent ++ "    <xsl:value-of select=\"" ++ selectPath ++ "\"/>\n"
        ++ indent ++ "  </xsl:when>\n"
        ++ indent ++ "  <xsl:otherwise>\n"
        ++ indent ++ "    <xsl:value-of select=\"substring(string(current-dateTime()), 1, 19)\"/>\n"
        ++ indent ++ "  </xsl:otherwise>\n"
        ++ indent ++ "</xsl:choose>\n"
    else if mapping.fieldType = "currency" then
      indent ++ "<!-- " ++ mapping.targetName ++ suffix ++ " - Currency field -->\n"
        ++ indent ++ "<xsl:choose>\n"
        ++ indent ++ "  <xsl:when test=\"" ++ selectPath ++ "\">\n"
        ++ indent ++ "    <xsl:value-of select=\"format-number(" ++ selectPath
        ++ ", \x270.00\x27)\"/>\n"
        ++ indent ++ "  </xsl:when>\n"
        ++ indent ++ "  <xsl:otherwise>\n"
        ++ indent ++ "    <xsl:text>0.00</xsl:text>\n"
        ++ indent ++ "  </xsl:otherwise>\n"
        ++ indent ++ "</xsl:choose>\n"
    else if mapping.fieldType = "decimal" || mapping.fieldType = "numeric" then
      indent ++ "<!-- " ++ mapping.targetName ++ suffix ++ " - Numeric field -->\n"
        ++ indent ++ "<xsl:choose>\n"
        ++ indent ++ "  <xsl:when test=\"" ++ selectPath ++ "\">\n"
        ++ indent ++ "    <xsl:value-of select=\"format-number(" ++ selectPath
        ++ ", \x270.00\x27)\"/>\n"
        ++ indent ++ "  </xsl:when>\n"
        ++ indent ++ "  <xsl:otherwise>\n"
        ++ indent ++ "    <xsl:text>0</xsl:text>\n"
        ++ indent ++ "  </xsl:otherwise>\n"
        ++ indent ++ "</xsl:choose>\n"
    else if mapping.fieldType = "time" then
      indent ++ "<!-- " ++ mapping.targetName ++ suffix ++ " - Time field -->\n"
        ++ indent ++ "<xsl:choose>\n"
        ++ indent ++ "  <xsl:when test=\"" ++ selectPath ++ "\">\n"
        ++ indent ++ "    <xsl:value-of select=\"" ++ selectPath ++ "\"/>\n"
        ++ indent ++ "  </xsl:when>\n"
        ++ indent ++ "  <xsl:otherwise>\n"
        ++ indent ++ "    <xsl:text></xsl:text>\n"
        ++ indent ++ "  </xsl:otherwise>\n"
        ++ indent ++ "</xsl:choose>\n"
    else
      (if mapping.required ≠ some true then
        indent ++ "<!-- " ++ mapping.targetName ++ suffix ++ " - Optional field -->\n"
      else "")
        ++ indent ++ "<xsl:choose>\n"
        ++ indent ++ "  <xsl:when test=\"" ++ selectPath ++ "\">\n"
        ++ indent ++ "    <xsl:value-of select=\"" ++ selectPath ++ "\"/>\n"
        ++ indent ++ "  </xsl:when>\n"
        ++ indent ++ "  <xsl:otherwise>\n"
        ++ indent ++ "    <xsl:text></xsl:text>\n"
        ++ indent ++ "  </xsl:otherwise>\n"
        ++ indent ++ "</xsl:choose>\n"
  body ++ indent ++ "<xsl:text>" ++ separator ++ "</xsl:text>"

/-- The value blocks one field contributes: `occurs` indexed blocks, the
final occurrence of the final field taking `&#10;` instead of the delimiter. -/
def flatBlocksFor (m : JMapping) (delim : String) (isLast : Bool) : List String :=
  let parsed := parseSourcePath m.sourcePath
  if m.occurs > 1 then
    (List.range m.occurs).map (fun j =>
      let sep := if j + 1 = m.occurs && isLast then "&#10;" else delim
      generateFlatFileValueExtraction m parsed sep (some (j + 1)))
  else
    [generateFlatFileValueExtraction m parsed (if isLast then "&#10;" else delim) none]

/-- The record template's value-extraction blocks for a field list, in order
(the last list element is the record's last field). -/
def flatValueExtractions (fields : List JMapping) (delim : String) : List String :=
  match fields with
  | [] => []
  | [m] => flatBlocksFor m delim true
  | m :: rest => flatBlocksFor m delim false ++ flatValueExtractions rest delim

/-- `generateFlatFileTransform` from the source. -/
def generateFlatFileTransform (mappings : MappingSet) (delimiter : String)
    (namespaces : List (String × String)) : String :=
  let actualFields := actualFieldsOf mappings
  let headers := joinWith delimiter (flatHeaderParts actualFields)
  let recordPath := if mappings.recordPath = "" then "*" else mappings.recordPath
  let applyPath := normalizeXPath (if mappings.rootPath = "" then "/*" else mappings.rootPath)
  "<?xml version=\"1.0\" encoding=\"UTF-8\"?>\n  <xsl:stylesheet version=\"1.0\" \n    xmlns:xsl=\"http://www.w3.org/1999/XSL/Transform\"\n    "
    ++ nsDeclText namespaces " " ++ "\n    " ++ defaultNSText namespaces ++ "\n    "
    ++ excludeResultText namespaces
    ++ ">\n    \n    <xsl:output method=\"text\" encoding=\"UTF-8\"/>\n    \n    <!-- Root template -->\n    <xsl:template match=\"/\">\n      <!-- Header row -->\n      <xsl:text>"
    ++ headers ++ "&#10;</xsl:text>\n      \n      <!-- Data rows -->\n      <xsl:apply-templates select=\""
    ++ applyPath ++ "\"/>\n    </xsl:template>\n    \n    <!-- Data template -->\n    <xsl:template match=\""
    ++ recordPath ++ "\">\n  "
    ++ joinWith "\n" (flatValueExtractions actualFields delimiter)
    ++ "\n    </xsl:template>\n    \n  </xsl:stylesheet>"

/-! ## Compiler Facade -/

/-- `generateXSLT` from the source: lowercase the format, dispatch, and fail
on anything unknown with a message naming the offending format string.  The
thrown `Error` is modelled as `Except.error`. -/
def generateXSLT (format : String) (mappings : MappingSet) (options : GenOptions) :
    Except String String :=
  if jsToLower format = "xml" then
    Except.ok (generateXMLTransform mappings options.namespaces)
  else if jsToLower format = "json" then
    Except.ok (generateJSONTransform mappings options.namespaces)
  else if jsToLower format = "flat" ∨ jsToLower format = "csv" then
    Except.ok (generateFlatFileTransform mappings
      (if options.delimiter = "" then "," else options.delimiter) options.namespaces)
  else Except.error ("Unsupported output format: " ++ format)

/-- The ambient runtime facilities a generator call could observe: a wall
clock and a pseudo-random-number state. -/
structure GenEnv where
  nowMillis : Nat := 0
  prngState : Nat := 0
  deriving Repr, DecidableEq

/-- A facade call together with the ambient environment.  The generation code
in the source never reads the clock or the random generator and mutates no
state shared between calls (`Date.now()`/`Math.random()` occur only in the
out-of-scope UI row-id code; the emitters only build strings and log
diagnostics), so the environment passes through untouched and the produced
text is a function of the arguments alone. -/
def generateXSLTInEnv (env : GenEnv) (format : String) (mappings : MappingSet)
    (options : GenOptions) : Except String String × GenEnv :=
  (generateXSLT format mappings options, env)

/-! ## Legacy template-based value selection

`generateValueSelect` is marked legacy in the source and is reachable only
from the old template-based generation functions, not from
`generateXMLTransform`; it is the one place in the XML path holding the
type-dispatched formatting (currency attribute, `format-number`, date
fallback). -/

/-- `generateValueSelect` from the source (legacy). -/
def generateValueSelect (mapping : JMapping) (parsed : Parsed) : String :=
  let selectPath :=
    if !parsed.isAttr && parsed.name ≠ "" then parsed.name else parsed.xpath
  if mapping.fieldType = "date" || mapping.fieldType = "dateTime" then
    "\n        <xsl:choose>\n          <xsl:when test=\"" ++ selectPath
      ++ "\">\n            <xsl:value-of select=\"" ++ selectPath
      ++ "\"/>\n          </xsl:when>\n          <xsl:otherwise>\n            <!-- Using current date-time as fallback -->\n            <xsl:value-of select=\"substring(string(current-dateTime()), 1, 19)\"/>\n          </xsl:otherwise>\n        </xsl:choose>"
  else if mapping.fieldType = "currency" then
    "\n        <xsl:attribute name=\"currencyID\">USD</xsl:attribute>\n        <xsl:value-of select=\"format-number("
      ++ selectPath ++ ", \x270.00\x27)\"/>"
  else if mapping.fieldType = "decimal" || mapping.fieldType = "numeric" then
    "\n        <xsl:value-of select=\"format-number(" ++ selectPath ++ ", \x270.00\x27)\"/>"
  else if mapping.fieldType = "time" then
    "\n        <xsl:value-of select=\"" ++ selectPath ++ "\"/>"
  else
    "\n        <xsl:choose>\n          <xsl:when test=\"" ++ selectPath
      ++ "\">\n            <xsl:value-of select=\"" ++ selectPath
      ++ "\"/>\n          </xsl:when>\n          <xsl:otherwise>\n            <!-- Field "
      ++ mapping.targetName
      ++ " is missing or has invalid XPath -->\n          </xsl:otherwise>\n        </xsl:choose>"

/-- The number of flat columns a field list expands to: `occurs` columns per
field with `occurs > 1`, one column otherwise. -/
def colCount : List JMapping → Nat
  | [] => 0
  | m :: rest => (if m.occurs > 1 then m.occurs else 1) + colCount rest

/-! ## Concrete fixtures used by the theorems -/

/-- Scenario E input: target paths `a/b` and `a/c`, no mapping for `a`. -/
def exC1 : List JMapping :=
  [ { sourcePath := "//b", targetName := "b", targetPath := "a/b" },
    { sourcePath := "//c", targetName := "c", targetPath := "a/c" } ]

/-- A single-field set whose field type is the parameter: the XML emitter is
blind to it. -/
def exC2f (ft : String) : MappingSet :=
  { fields := [ { sourcePath := "//Price", targetName := "Amount", fieldType := ft } ],
    rootElement := some { name := "Invoice" } }

/-- A set whose only mapping lacks a `sourcePath` (a malformed entry). -/
def exC3 : MappingSet :=
  { fields := [ { sourcePath := "", targetName := "X", targetPath := "X" } ] }

/-- Scenario B input: one currency field with `occurs := 3`. -/
def exC5 : MappingSet :=
  { fields := [ { sourcePath := "//Amount", targetName := "Name", fieldType := "currency",
                  occurs := 3 } ] }

/-- Scenario C input: the `Lang` variable and a variable-valued `lang`
attribute on the root element. -/
def exC7 : MappingSet :=
  { fields := [ { sourcePath := "//t", targetName := "t" } ],
    rootElement := some
      { name := "Root",
        attributes := [ { name := "lang", value := "Lang", isVariable := true } ] },
    varList := some [ { name := "Lang", value := "en-US" } ] }

/-- Sanitization fixture: target segments, root-element name, attribute name
and variable name all contain a space. -/
def exC10 : MappingSet :=
  { fields := [ { sourcePath := "//p", targetName := "x y", targetPath := "ab c/x y" } ],
    rootElement := some
      { name := "my root",
        attributes := [ { name := "data attr", value := "v 1", isHardcoded := true } ] },
    varList := some [ { name := "my var", value := "z" } ] }

/-! ## Supporting lemmas -/

set_option maxRecDepth 10000

theorem mem_addUnique {q p : String} {acc : List String} :
    q ∈ addUnique acc p ↔ q ∈ acc ∨ q = p := by
  by_cases h : p ∈ acc
  · simp only [addUnique, if_pos h]
    constructor
    · exact Or.inl
    · rintro (hq | rfl)
      · exact hq
      · exact h
  · simp [addUnique, if_neg h]

theorem nodup_addUnique {acc : List String} {p : String} (h : acc.Nodup) :
    (addUnique acc p).Nodup := by
  by_cases hp : p ∈ acc
  · simpa [addUnique, hp] using h
  · simp [addUnique, hp, List.nodup_append, h]

theorem mem_foldl_addUnique (l : List String) :
    ∀ acc q, q ∈ l.foldl addUnique acc ↔ q ∈ acc ∨ q ∈ l := by
  induction l with
  | nil => simp
  | cons p t ih =>
      intro acc q
      simp only [List.foldl_cons, ih, mem_addUnique, List.mem_cons]
      tauto

theorem nodup_foldl_addUnique (l : List String) :
    ∀ acc, acc.Nodup → (l.foldl addUnique acc).Nodup := by
  induction l with
  | nil => intro acc h; exact h
  | cons p t ih => intro acc h; exact ih _ (nodup_addUnique h)

theorem mem_allPathsOf_aux (ms : List JMapping) :
    ∀ acc q, q ∈ ms.foldl (fun acc m => (prefixesOf (effTargetPath m)).foldl addUnique acc) acc
      ↔ q ∈ acc ∨ ∃ m ∈ ms, q ∈ prefixesOf (effTargetPath m) := by
  induction ms with
  | nil => simp
  | cons m t ih =>
      intro acc q
      simp only [List.foldl_cons, ih, mem_foldl_addUnique, List.mem_cons]
      constructor
      · rintro ((h | h) | ⟨m', hm', h⟩)
        · exact Or.inl h
        · exact Or.inr ⟨m, Or.inl rfl, h⟩
        · exact Or.inr ⟨m', Or.inr hm', h⟩
      · rintro (h | ⟨m', (rfl | hm'), h⟩)
        · exact Or.inl (Or.inl h)
        · exact Or.inl (Or.inr h)
        · exact Or.inr ⟨m', hm', h⟩

theorem mem_allPathsOf {ms : List JMapping} {q : String} :
    q ∈ allPathsOf ms ↔ ∃ m ∈ ms, q ∈ prefixesOf (effTargetPath m) := by
  simpa [allPathsOf] using mem_allPathsOf_aux ms [] q

theorem nodup_allPathsOf (ms : List JMapping) : (allPathsOf ms).Nodup := by
  unfold allPathsOf
  generalize h : ([] : List String) = acc
  have hacc : acc.Nodup := by rw [← h]; exact List.nodup_nil
  clear h
  induction ms generalizing acc with
  | nil => exact hacc
  | cons m t ih => exact ih _ (nodup_foldl_addUnique _ _ hacc)

theorem mem_missingPaths {ms : List JMapping} {p : String} :
    p ∈ missingPaths ms ↔
      (∃ m ∈ ms, p ∈ prefixesOf (effTargetPath m))
        ∧ (∀ m ∈ ms, effTargetPath m ≠ p) ∧ strContains p "/" = true := by
  unfold missingPaths
  rw [List.mem_filter, mem_allPathsOf]
  have hc : ((ms.map effTargetPath).contains p = true) ↔ ∃ m ∈ ms, effTargetPath m = p := by
    simp [List.contains_iff_exists_mem_beq, List.mem_map]
  constructor
  · rintro ⟨h1, h2⟩
    rw [Bool.and_eq_true, Bool.not_eq_true'] at h2
    refine ⟨h1, ?_, h2.2⟩
    intro m hm hp
    have : (ms.map effTargetPath).contains p = true := hc.mpr ⟨m, hm, hp⟩
    rw [this] at h2
    exact Bool.noConfusion h2.1
  · rintro ⟨h1, h2, h3⟩
    refine ⟨h1, ?_⟩
    rw [Bool.and_eq_true, Bool.not_eq_true']
    refine ⟨?_, h3⟩
    cases hcc : (ms.map effTargetPath).contains p with
    | false => rfl
    | true =>
        obtain ⟨m, hm, hp⟩ := hc.mp hcc
        exact absurd hp (h2 m hm)

theorem nodup_missingPaths (ms : List JMapping) : (missingPaths ms).Nodup :=
  (nodup_allPathsOf ms).filter _

/-! ## Claim C1 -/

/-- C1 (corrected): `ensureCompleteHierarchy` returns the original mappings
followed by exactly one synthesized placeholder — with the claimed field
values — for every distinct non-empty prefix of a mapping's effective target
path that contains at least one `/` (multi-segment prefixes only) and is not
already some mapping's own target path.  The claim's inclusion of
single-segment prefixes such as `a` is refuted separately. -/
theorem C1_hierarchy_completer_amended (ms : List JMapping) :
    ensureCompleteHierarchy ms = ms ++ (missingPaths ms).map mkPlaceholder
    ∧ (missingPaths ms).Nodup
    ∧ (∀ p : String, p ∈ missingPaths ms ↔
        (∃ m ∈ ms, p ∈ prefixesOf (effTargetPath m))
          ∧ (∀ m ∈ ms, effTargetPath m ≠ p) ∧ strContains p "/" = true)
    ∧ (∀ p : String,
        (mkPlaceholder p).targetName = (splitSlash p).getLastD ""
        ∧ (mkPlaceholder p).targetPath = p
        ∧ (mkPlaceholder p).sourcePath = "//" ++ slashToUnderscore p
        ∧ (mkPlaceholder p).fieldType = "component"
        ∧ (mkPlaceholder p).required = some false
        ∧ (mkPlaceholder p).isPlaceholder = true) :=
  ⟨rfl, nodup_missingPaths ms, fun _ => mem_missingPaths,
    fun _ => ⟨rfl, rfl, rfl, rfl, rfl, rfl⟩⟩

/-- C1 counterexample: for target paths `a/b` and `a/c` the single-segment
prefix `a` is a non-empty prefix of both and is no mapping's own target path,
yet `ensureCompleteHierarchy` synthesizes nothing at all — there is no
placeholder for `a`, contradicting the claim (and Scenario E). -/
theorem C1_single_segment_counterexample :
    ((∃ m ∈ exC1, "a" ∈ prefixesOf (effTargetPath m)) ∧ ∀ m ∈ exC1, effTargetPath m ≠ "a")
    ∧ ensureCompleteHierarchy exC1 = exC1
    ∧ ∀ m ∈ ensureCompleteHierarchy exC1, ¬(m.isPlaceholder = true ∧ m.targetPath = "a") := by
  refine ⟨⟨?_, ?_⟩, ?_, ?_⟩ <;> decide

/-- C1 witness: the amended characterization evaluated on the Scenario E
fixture. -/
theorem C1_witness :
    ensureCompleteHierarchy exC1 = exC1 ++ (missingPaths exC1).map mkPlaceholder :=
  (C1_hierarchy_completer_amended exC1).1

/-! ## Claim C8 -/

theorem nextBracket_of_bal0 : ∀ cs : List Char, bal01 0 cs = true →
    nextBracketIsClose cs = false := by
  intro cs
  induction cs with
  | nil => intro _; rfl
  | cons c rest ih =>
      intro h
      by_cases hc : c = '['
      · simp [nextBracketIsClose, hc]
      · by_cases hc2 : c = ']'
        · rw [hc2] at h
          simp [bal01] at h
        · rw [show nextBracketIsClose (c :: rest) = nextBracketIsClose rest by
            simp [nextBracketIsClose, hc, hc2]]
          exact ih (by simpa [bal01, hc, hc2] using h)

theorem nextBracket_of_bal1 : ∀ cs : List Char, bal01 1 cs = true →
    nextBracketIsClose cs = true := by
  intro cs
  induction cs with
  | nil => intro h; exact absurd h (by simp [bal01])
  | cons c rest ih =>
      intro h
      by_cases hc : c = '['
      · rw [hc] at h
        simp [bal01] at h
      · by_cases hc2 : c = ']'
        · simp [nextBracketIsClose, hc, hc2]
        · rw [show nextBracketIsClose (c :: rest) = nextBracketIsClose rest by
            simp [nextBracketIsClose, hc, hc2]]
          exact ih (by simpa [bal01, hc, hc2] using h)

theorem bal01_open {d : Nat} {rest : List Char} :
    bal01 d ('[' :: rest) = if d = 0 then bal01 1 rest else false := by
  simp [bal01]

theorem bal01_close {d : Nat} {rest : List Char} :
    bal01 d (']' :: rest) = if d = 1 then bal01 0 rest else false := by
  simp [bal01]

theorem bal01_other {d : Nat} {c : Char} {rest : List Char} (h1 : c ≠ '[') (h2 : c ≠ ']') :
    bal01 d (c :: rest) = bal01 d rest := by
  simp [bal01, h1, h2]

theorem dotReplData_cons_ne {c : Char} (h : c ≠ '.') (rest : List Char) :
    dotReplData (c :: rest) = c :: dotReplData rest := by
  simp [dotReplData, h]

theorem dotReplData_cons_dot (rest : List Char) :
    dotReplData ('.' :: rest) =
      (if nextBracketIsClose rest then '.' else '/') :: dotReplData rest := by
  by_cases hb : nextBracketIsClose rest <;> simp [dotReplData, hb]

theorem specAux_open (d : Nat) (rest : List Char) :
    dotReplSpecAux d ('[' :: rest) = '[' :: dotReplSpecAux (d + 1) rest := by
  simp [dotReplSpecAux]

theorem specAux_close (d : Nat) (rest : List Char) :
    dotReplSpecAux d (']' :: rest) = ']' :: dotReplSpecAux (d - 1) rest := by
  simp [dotReplSpecAux]

theorem specAux_dot (d : Nat) (rest : List Char) :
    dotReplSpecAux d ('.' :: rest) =
      (if d = 0 then '/' else '.') :: dotReplSpecAux d rest := by
  by_cases hd : d = 0 <;> simp [dotReplSpecAux, hd]

theorem specAux_other {c : Char} (d : Nat) (rest : List Char) (h1 : c ≠ '[') (h2 : c ≠ ']')
    (h3 : c ≠ '.') : dotReplSpecAux d (c :: rest) = c :: dotReplSpecAux d rest := by
  simp [dotReplSpecAux, h1, h2, h3]

theorem dotRepl_agree : ∀ (cs : List Char) (d : Nat), d ≤ 1 → bal01 d cs = true →
    dotReplData cs = dotReplSpecAux d cs := by
  intro cs
  induction cs with
  | nil => intro d _ _; cases d <;> rfl
  | cons c rest ih =>
      intro d hd h
      by_cases hop : c = '['
      · subst hop
        have hd0 : d = 0 := by
          by_contra hne
          rw [bal01_open, if_neg hne] at h
          exact Bool.noConfusion h
        subst hd0
        rw [bal01_open, if_pos rfl] at h
        rw [dotReplData_cons_ne (by decide) rest, specAux_open]
        exact congrArg _ (ih 1 (by omega) h)
      · by_cases hcl : c = ']'
        · subst hcl
          have hd1 : d = 1 := by
            by_contra hne
            rw [bal01_close, if_neg hne] at h
            exact Bool.noConfusion h
          subst hd1
          rw [bal01_close, if_pos rfl] at h
          rw [dotReplData_cons_ne (by decide) rest, specAux_close]
          exact congrArg _ (ih 0 (by omega) h)
        · have h' : bal01 d rest = true := by rwa [bal01_other hop hcl] at h
          by_cases hdot : c = '.'
          · subst hdot
            rw [dotReplData_cons_dot, specAux_dot]
            rcases (show d = 0 ∨ d = 1 by omega) with hd0 | hd1
            · subst hd0
              rw [nextBracket_of_bal0 rest h']
              exact congrArg _ (ih 0 (by omega) h')
            · subst hd1
              rw [nextBracket_of_bal1 rest h']
              exact congrArg _ (ih 1 (by omega) h')
          · rw [dotReplData_cons_ne hdot rest, specAux_other d rest hop hcl hdot]
            exact congrArg _ (ih d hd h')

/-- C8 (corrected): the normalizer returns `""` on empty input and otherwise
applies, in order, trim, filename stripping, dot conversion and the `//`
prefixing — with validation never altering the result — but step (b) replaces
a dot exactly when no `]` precedes the next `[` to its right.  On inputs with
balanced, non-nested brackets this coincides with the claimed "never inside a
bracketed predicate"; the two readings diverge on nested predicates, which
the counterexample exhibits. -/
theorem C8_normalizer_amended :
    normalizeXPath "" = ""
    ∧ (∀ s : String, s ≠ "" →
        normalizeXPath s = addDescendantMark (dotRepl (stripXmlFile (jsTrim s))))
    ∧ (∀ s : String, isValidXPath (addDescendantMark (dotRepl (stripXmlFile (jsTrim s)))) = false →
        s ≠ "" → normalizeXPath s = addDescendantMark (dotRepl (stripXmlFile (jsTrim s))))
    ∧ (∀ s : String, bal01 0 s.data = true →
        dotRepl s = String.mk (dotReplSpecAux 0 s.data)) := by
  refine ⟨rfl, ?_, ?_, ?_⟩
  · intro s hs
    rw [normalizeXPath, if_neg hs]
  · intro s _ hs
    rw [normalizeXPath, if_neg hs]
  · intro s hbal
    unfold dotRepl
    exact congrArg String.mk (dotRepl_agree s.data 0 (by omega) hbal)

/-- C8 counterexample: in `a[b.c[d]e]` the dot sits inside a bracketed
predicate, so the claim's step (b) keeps it; the code replaces it because the
next bracket to its right is the nested `[`.  The spec-worded normalizer and
the code therefore disagree on this input. -/
theorem C8_nested_predicate_counterexample :
    normalizeXPath "a[b.c[d]e]" = "//a[b/c[d]e]"
    ∧ specNormalizeXPath "a[b.c[d]e]" = "//a[b.c[d]e]"
    ∧ normalizeXPath "a[b.c[d]e]" ≠ specNormalizeXPath "a[b.c[d]e]" := by
  refine ⟨?_, ?_, ?_⟩ <;> decide

/-- C8 witness: the amended pipeline equality evaluated at a concrete
balanced input, together with the step (b) agreement on it. -/
theorem C8_witness :
    normalizeXPath "a.b[c.d]" = addDescendantMark (dotRepl (stripXmlFile (jsTrim "a.b[c.d]")))
    ∧ dotRepl "a.b[c.d]" = String.mk (dotReplSpecAux 0 ("a.b[c.d]" : String).data) :=
  ⟨C8_normalizer_amended.2.1 "a.b[c.d]" (by decide),
    C8_normalizer_amended.2.2.2 "a.b[c.d]" (by decide)⟩

/-! ## Claim C2 -/

/-- C2 (corrected): on the production XML path a `currency`/`xpath` mapping is
emitted as a plain `<xsl:value-of select="..."/>` with no type-specific
handling — the inline value selector ignores `fieldType` entirely, the whole
XML output is unchanged under any `fieldType` on the counterexample shape,
and the claimed `format-number` + `currencyID="USD"` behaviour lives only in
the legacy `generateValueSelect`, which `generateXMLTransform` never
invokes. -/
theorem C2_xml_currency_amended :
    (∀ (m : JMapping) (p : Parsed) (ind : String),
        generateXMLValueSelectInline m p ind
          = ind ++ "<xsl:value-of select=\""
              ++ (if p.xpath ≠ "" then p.xpath else m.sourcePath) ++ "\"/>\n")
    ∧ (∀ ft : String,
        generateXMLTransform (exC2f ft) [] = generateXMLTransform (exC2f "string") [])
    ∧ (∀ (m : JMapping) (p : Parsed), m.fieldType = "currency" →
        generateValueSelect m p
          = "\n        <xsl:attribute name=\"currencyID\">USD</xsl:attribute>\n        <xsl:value-of select=\"format-number("
              ++ (if !p.isAttr && p.name ≠ "" then p.name else p.xpath) ++ ", \x270.00\x27)\"/>") := by
  refine ⟨fun m p ind => rfl, fun ft => rfl, ?_⟩
  intro m p h
  unfold generateValueSelect
  rw [h]
  rfl

/-- C2 counterexample: for the mapping `{sourcePath: "//Price", targetName:
"Amount", fieldType: "currency"}` the XML stylesheet contains no
`format-number` and no `currencyID`, only the plain value-of the claim
excludes. -/
theorem C2_currency_counterexample :
    strContains (generateXMLTransform (exC2f "currency") []) "format-number" = false
    ∧ strContains (generateXMLTransform (exC2f "currency") []) "currencyID" = false
    ∧ strContains (generateXMLTransform (exC2f "currency") [])
        "<xsl:value-of select=\"//Price\"/>" = true := by
  refine ⟨?_, ?_, ?_⟩ <;> decide

/-- C2 witness: the field-type blindness and the legacy currency formatting,
both at concrete inputs. -/
theorem C2_witness :
    generateXMLTransform (exC2f "currency") [] = generateXMLTransform (exC2f "string") []
    ∧ generateValueSelect { fieldType := "currency", targetName := "T" } { name := "Price" }
        = "\n        <xsl:attribute name=\"currencyID\">USD</xsl:attribute>\n        <xsl:value-of select=\"format-number(Price, \x270.00\x27)\"/>" :=
  ⟨C2_xml_currency_amended.2.1 "currency",
    by
      rw [C2_xml_currency_amended.2.2 { fieldType := "currency", targetName := "T" }
        { name := "Price" } rfl]
      rfl⟩

/-! ## Claim C3 -/

/-- C3 (code bug evaluation): a mapping with empty `sourcePath` passes
normalization unchanged and the flat emitter still gives it a header column
`X` and one value-extraction block, so it does contribute to the emitted
stylesheet, contrary to the exclusion the specification requires. -/
theorem C3_flat_includes_incomplete :
    (∃ m ∈ exC3.fields, m.sourcePath = "")
    ∧ normalizeAllMappings exC3.fields = exC3.fields
    ∧ joinWith "," (flatHeaderParts (actualFieldsOf exC3)) = "X"
    ∧ (flatValueExtractions (actualFieldsOf exC3) ",").length = 1
    ∧ strContains (generateFlatFileTransform exC3 "," []) "<xsl:text>X&#10;</xsl:text>" = true := by
  refine ⟨?_, ?_, ?_, ?_, ?_⟩ <;> decide

/-! ## Claim C4 -/

/-- C4 (confirmed): the facade lowercases the format and dispatches `xml`,
`json`, `flat` and `csv` to the matching emitter with `namespaces` as given
(defaulting happens in the options record) and the delimiter defaulting to
`,`; every other format string produces only an error whose message names the
offending format string verbatim. -/
theorem C4_facade_dispatch :
    (∀ (f : String) (ms : MappingSet) (o : GenOptions), jsToLower f = "xml" →
        generateXSLT f ms o = Except.ok (generateXMLTransform ms o.namespaces))
    ∧ (∀ (f : String) (ms : MappingSet) (o : GenOptions), jsToLower f = "json" →
        generateXSLT f ms o = Except.ok (generateJSONTransform ms o.namespaces))
    ∧ (∀ (f : String) (ms : MappingSet) (o : GenOptions),
        jsToLower f = "flat" ∨ jsToLower f = "csv" →
        generateXSLT f ms o = Except.ok (generateFlatFileTransform ms
          (if o.delimiter = "" then "," else o.delimiter) o.namespaces))
    ∧ (∀ (f : String) (ms : MappingSet) (o : GenOptions), jsToLower f ≠ "xml" →
        jsToLower f ≠ "json" → jsToLower f ≠ "flat" → jsToLower f ≠ "csv" →
        generateXSLT f ms o = Except.error ("Unsupported output format: " ++ f)) := by
  refine ⟨?_, ?_, ?_, ?_⟩
  · intro f ms o h
    unfold generateXSLT
    rw [h]
    rfl
  · intro f ms o h
    unfold generateXSLT
    rw [h]
    rfl
  · intro f ms o h
    unfold generateXSLT
    rcases h with h | h <;> rw [h] <;> rfl
  · intro f ms o h1 h2 h3 h4
    unfold generateXSLT
    rw [if_neg h1, if_neg h2, if_neg (by simp [h3, h4])]

/-- C4 witness: a case-insensitive accept (`XmL`) and the Scenario D reject
(`yaml`), both evaluated concretely. -/
theorem C4_witness :
    generateXSLT "XmL" {} {} = Except.ok (generateXMLTransform {} [])
    ∧ generateXSLT "yaml" {} {} = Except.error "Unsupported output format: yaml" :=
  ⟨C4_facade_dispatch.1 "XmL" {} {} (by decide),
    C4_facade_dispatch.2.2.2 "yaml" {} {} (by decide) (by decide) (by decide) (by decide)⟩

/-! ## Claim C5 -/

/-- C5 (confirmed, Scenario B): one currency field with `occurs := 3` under
the flat emitter with delimiter `,` yields header columns
`Name_1,Name_2,Name_3`; the record template holds three blocks, each with a
`format-number(..., '0.00')` call, the first two ending in a `,` text node
and the record's last one ending in `&#10;`. -/
theorem C5_flat_occurs_scenario :
    joinWith "," (flatHeaderParts (actualFieldsOf exC5)) = "Name_1,Name_2,Name_3"
    ∧ (flatValueExtractions (actualFieldsOf exC5) ",").length = 3
    ∧ (flatValueExtractions (actualFieldsOf exC5) ",").all
        (fun b => strContains b "format-number(") = true
    ∧ ((flatValueExtractions (actualFieldsOf exC5) ",").take 2).all
        (fun b => strEnds b "<xsl:text>,</xsl:text>") = true
    ∧ strEnds ((flatValueExtractions (actualFieldsOf exC5) ",").getLastD "")
        "<xsl:text>&#10;</xsl:text>" = true
    ∧ strContains (generateFlatFileTransform exC5 "," [])
        "<xsl:text>Name_1,Name_2,Name_3&#10;</xsl:text>" = true
    ∧ countSub (generateFlatFileTransform exC5 "," []) "format-number(" = 3 := by
  refine ⟨?_, ?_, ?_, ?_, ?_, ?_, ?_⟩ <;> decide

/-! ## Claim C6 -/

theorem flatHeaderParts_length (fields : List JMapping) :
    (flatHeaderParts fields).length = colCount fields := by
  induction fields with
  | nil => rfl
  | cons m rest ih =>
      by_cases h : m.occurs > 1 <;>
        simp [flatHeaderParts, colCount, h, ih, Nat.add_comm]

theorem flatBlocksFor_length (m : JMapping) (delim : String) (isLast : Bool) :
    (flatBlocksFor m delim isLast).length = if m.occurs > 1 then m.occurs else 1 := by
  by_cases h : m.occurs > 1 <;> simp [flatBlocksFor, h]

theorem flatValueExtractions_length (fields : List JMapping) (delim : String) :
    (flatValueExtractions fields delim).length = colCount fields := by
  induction fields with
  | nil => rfl
  | cons m rest ih =>
      cases rest with
      | nil => simp [flatValueExtractions, flatBlocksFor_length, colCount]
      | cons y t =>
          rw [show flatValueExtractions (m :: y :: t) delim
              = flatBlocksFor m delim false ++ flatValueExtractions (y :: t) delim from rfl]
          simp [List.length_append, flatBlocksFor_length, ih, colCount]

/-- C6 (confirmed): for every MappingSet and delimiter, the header columns of
the flat emitter (placeholders excluded via `actualFieldsOf`) and the
value-extraction blocks of its record template both number `colCount` — one
per field, `occurs` per field with `occurs > 1` — and hence agree. -/
theorem C6_flat_column_parity (ms : MappingSet) (delim : String) :
    (flatHeaderParts (actualFieldsOf ms)).length = colCount (actualFieldsOf ms)
    ∧ (flatValueExtractions (actualFieldsOf ms) delim).length = colCount (actualFieldsOf ms)
    ∧ (flatHeaderParts (actualFieldsOf ms)).length
        = (flatValueExtractions (actualFieldsOf ms) delim).length :=
  ⟨flatHeaderParts_length _, flatValueExtractions_length _ _,
    (flatHeaderParts_length _).trans (flatValueExtractions_length _ _).symm⟩

/-! ## Claim C7 -/

/-- C7 (confirmed): a variable with a literal value and no xpath is emitted
single-quoted, an xpath-valued variable unquoted, a variable-referencing
attribute renders as `name="{$value}"`, and the Scenario C fixture produces
both `<xsl:variable name="Lang" select="'en-US'"/>` and `lang="{$Lang}"` in
the XML stylesheet. -/
theorem C7_variable_emission :
    (∀ v : JVar, v.xpath = "" → v.value ≠ "" →
        varLine v = "  <xsl:variable name=\"" ++ v.name ++ "\" select=\"\x27"
          ++ v.value ++ "\x27\"/>\n")
    ∧ (∀ v : JVar, v.xpath ≠ "" →
        varLine v = "  <xsl:variable name=\"" ++ v.name ++ "\" select=\""
          ++ v.xpath ++ "\"/>\n")
    ∧ (∀ a : JAttr, a.isVariable = true →
        attrText a = " " ++ a.name ++ "=\"\x7b$" ++ a.value ++ "\x7d\"")
    ∧ strContains (generateXMLTransform exC7 [])
        "<xsl:variable name=\"Lang\" select=\"\x27en-US\x27\"/>" = true
    ∧ strContains (generateXMLTransform exC7 []) "lang=\"\x7b$Lang\x7d\"" = true := by
  refine ⟨?_, ?_, ?_, by decide, by decide⟩
  · intro v h1 h2
    unfold varLine
    rw [if_neg (by simp [h1]), if_pos h2]
  · intro v h
    unfold varLine
    rw [if_pos h]
  · intro a h
    unfold attrText
    rw [if_pos h]

/-- C7 witness: the literal-value branch, the xpath branch and the attribute
rendering evaluated at the Scenario C constants. -/
theorem C7_witness :
    varLine { name := "Lang", value := "en-US" }
        = "  <xsl:variable name=\"Lang\" select=\"\x27en-US\x27\"/>\n"
    ∧ varLine { name := "V", xpath := "/a/b" }
        = "  <xsl:variable name=\"V\" select=\"/a/b\"/>\n"
    ∧ attrText { name := "lang", value := "Lang", isVariable := true }
        = " lang=\"\x7b$Lang\x7d\"" :=
  ⟨C7_variable_emission.1 { name := "Lang", value := "en-US" } rfl (by decide),
    C7_variable_emission.2.1 { name := "V", xpath := "/a/b" } (by decide),
    C7_variable_emission.2.2.1 { name := "lang", value := "Lang", isVariable := true } rfl⟩

/-! ## Claim C9 -/

/-- C9 (confirmed): a facade call is a pure function of its arguments — its
result does not depend on the ambient environment (wall clock, PRNG state),
and a second call with identical arguments, run in the environment the first
call left behind, returns the identical string. -/
theorem C9_determinism (e1 e2 : GenEnv) (format : String) (ms : MappingSet) (o : GenOptions) :
    (generateXSLTInEnv e1 format ms o).1 = (generateXSLTInEnv e2 format ms o).1
    ∧ (generateXSLTInEnv (generateXSLTInEnv e1 format ms o).2 format ms o).1
        = (generateXSLTInEnv e1 format ms o).1 :=
  ⟨rfl, rfl⟩

/-! ## Claim C10 -/

theorem strExt {a b : String} (h : a.data = b.data) : a = b := by
  cases a
  cases b
  exact congrArg String.mk h

theorem dataAppend (a b : String) : (a ++ b).data = a.data ++ b.data := by
  cases a
  cases b
  rfl

theorem strAppend_assoc (a b c : String) : a ++ b ++ c = a ++ (b ++ c) := by
  apply strExt
  simp [dataAppend]

theorem strAppend_empty (a : String) : a ++ "" = a := by
  apply strExt
  simp [dataAppend]

theorem strEmpty_append (a : String) : "" ++ a = a := by
  apply strExt
  simp [dataAppend]

/-- C10 (confirmed): every component tag the XML hierarchy walk emits and
every leaf tag and JSON map-entry key is `escapeXMLName` of the target-path
segment, for arbitrary segment content, while `generateElementWithAttributes`
— used for the configured root element — and the variable/attribute emitters
print their names verbatim; the mixed fixture shows `ab c/x y` emitted as
`<ab_c>`/`<x_y>` and as JSON keys `'ab_c'`/`'x_y'`, with root name `my root`,
attribute name `data attr` and variable name `my var` left unsanitized. -/
theorem C10_name_sanitization :
    (∀ (k ind : String), k ≠ "_fields" → k ≠ "_metadata" →
        generateInlineXMLStructure (HTree.cons k HTree.nil HTree.nil) [] ind
          = ind ++ "<" ++ escapeXMLName k ++ ">\n" ++ (ind ++ "</" ++ escapeXMLName k ++ ">\n"))
    ∧ (∀ (m : JMapping) (ind : String), m.forEachPath = "" → m.occurs ≤ 1 →
        generateXMLFieldInline m ind
          = generateElementWithAttributes
              { name := escapeXMLName m.leafName, attributes := m.attributes } ind
            ++ ((if m.valueType = "hardcoded" then ind ++ "  " ++ m.hardcodedValue ++ "\n"
                else if m.valueType = "empty" then ""
                else if (m.parsed.getD {}).isAttr then
                  ind ++ "  <xsl:value-of select=\"@" ++ (m.parsed.getD {}).name ++ "\"/>\n"
                else generateXMLValueSelectInline m (m.parsed.getD {}) (ind ++ "  "))
              ++ (ind ++ "</" ++ escapeXMLName m.leafName ++ ">\n")))
    ∧ (∀ (m : JMapping) (ind : String), m.isPlaceholder = false → m.required = some true →
        m.occurs ≤ 1 →
        jsonFieldEntry m ind
          = ind ++ "<xsl:map-entry key=\"\x27" ++ escapeXMLName m.leafName ++ "\x27\">\n"
            ++ ((if (m.parsed.getD {}).isAttr then
                  ind ++ "  <xsl:value-of select=\""
                    ++ validateAndFixXPath m.sourcePath (m.parsed.getD {}) ++ "\"/>\n"
                else
                  generateJSONValueSelectEnhanced m (m.parsed.getD {})
                    (validateAndFixXPath m.sourcePath (m.parsed.getD {})) (ind ++ "  "))
              ++ (ind ++ "</xsl:map-entry>\n")))
    ∧ (∀ (e : JRootElement) (ind : String),
        generateElementWithAttributes e ind
          = ind ++ "<" ++ e.name ++ String.join (e.attributes.map attrText) ++ ">\n")
    ∧ strContains (generateXMLTransform exC10 []) "<ab_c>" = true
    ∧ strContains (generateXMLTransform exC10 []) "<x_y>" = true
    ∧ strContains (generateXMLTransform exC10 []) "</ab_c>" = true
    ∧ strContains (generateXMLTransform exC10 []) "<ab c" = false
    ∧ strContains (generateXMLTransform exC10 []) "<my root" = true
    ∧ strContains (generateXMLTransform exC10 []) "my_root" = false
    ∧ strContains (generateXMLTransform exC10 []) "data attr=\"v 1\"" = true
    ∧ strContains (generateXMLTransform exC10 []) "data_attr" = false
    ∧ strContains (generateXMLTransform exC10 []) "<xsl:variable name=\"my var\"" = true
    ∧ strContains (generateXMLTransform exC10 []) "my_var" = false
    ∧ strContains (generateJSONTransform exC10 []) "key=\"\x27ab_c\x27\"" = true
    ∧ strContains (generateJSONTransform exC10 []) "key=\"\x27x_y\x27\"" = true := by
  refine ⟨?_, ?_, ?_, fun e ind => rfl, by decide, by decide, by decide, by decide, by decide,
    by decide, by decide, by decide, by decide, by decide, by decide, by decide⟩
  · intro k ind h1 h2
    simp [generateInlineXMLStructure, h1, h2, generateElementWithAttributes, String.join,
      List.find?, strAppend_assoc, strAppend_empty, strEmpty_append]
  · intro m ind h1 h2
    simp [generateXMLFieldInline, h1, show ¬m.occurs > 1 by omega, strAppend_assoc]
  · intro m ind h1 h2 h3
    simp [jsonFieldEntry, h1, h2, show ¬m.occurs > 1 by omega, strAppend_assoc,
      strEmpty_append]

/-- C10 witness: the component-tag sanitization applied to the segment
`ab c` and the leaf-tag sanitization applied to a concrete mapping with leaf
name `x y`. -/
theorem C10_witness :
    generateInlineXMLStructure (HTree.cons "ab c" HTree.nil HTree.nil) [] ""
      = "" ++ "<" ++ escapeXMLName "ab c" ++ ">\n" ++ ("" ++ "</" ++ escapeXMLName "ab c" ++ ">\n")
    ∧ generateXMLFieldInline { leafName := "x y", valueType := "empty" } ""
      = generateElementWithAttributes { name := escapeXMLName "x y", attributes := [] } ""
        ++ ("" ++ ("" ++ "</" ++ escapeXMLName "x y" ++ ">\n")) :=
  ⟨C10_name_sanitization.1 "ab c" "" (by decide) (by decide),
    by
      have h := C10_name_sanitization.2.1 { leafName := "x y", valueType := "empty" } ""
        rfl (by decide)
      simpa using h⟩

end XSLTGen
